import Mathlib

/-!
Verification development for the receipts repository.

Part I embeds the frontend search client (`search-data.ts`, `receipts-api.ts`):
the API record types, the mapping from API messages to UI messages, the
exact-mode keyword search over fetched threads, and the ask-mode context-window
search.  Date formatting (date-fns) is treated as an opaque function parameter.

Part II models the Python processing module (`imessage_processor.py`), which is
documented in `python/README.md` but whose source is not part of this tree;
those definitions are modelled from the spec and marked as such.
-/

namespace Receipts

/-- Record type of the `ApiMessage` interface in receipts-api.ts. -/
structure ApiMessage where
  sent_at : String
  sender_name : String
  text : String
deriving DecidableEq, Inhabited

/-- Record type of the `ApiThread` interface in receipts-api.ts. -/
structure ApiThread where
  chat_id : Nat
  title : String
  last_message_at : String
deriving DecidableEq, Inhabited

/-- Record type of the UI message produced by `apiMessageToUiMessage` in
search-data.ts (the optional `isUser` field is always set there). -/
structure UiMessage where
  sender : String
  text : String
  time : String
  isUser : Bool
deriving DecidableEq, Inhabited

/-- Lean model of `apiMessageToUiMessage` from search-data.ts.  The date-fns
time formatter `formatMessageTime` is passed as the opaque function `fmtTime`. -/
def apiMessageToUiMessage (fmtTime : String → String) (m : ApiMessage) : UiMessage :=
  { sender := if m.sender_name = "ME" then "You" else m.sender_name
  , text := m.text
  , time := fmtTime m.sent_at
  , isUser := m.sender_name = "ME" }

/-- Lean model of the JavaScript `s.toLowerCase()`: lowercase each character. -/
def lowerStr (s : String) : String := ⟨s.data.map Char.toLower⟩

/-- Lean model of the JavaScript `s.trim()`: strip whitespace from both ends. -/
def trimStr (s : String) : String :=
  ⟨((s.data.dropWhile Char.isWhitespace).reverse.dropWhile Char.isWhitespace).reverse⟩

/-- Lean model of the JavaScript `hay.includes(needle)` substring test. -/
def strIncludes (hay needle : String) : Bool :=
  decide (needle.data <:+: hay.data)

/-- Lean model of the message filter `m.text && m.text.toLowerCase().includes(q)`
used by `searchMessages` in search-data.ts: the text is non-empty (JS truthiness)
and its lowercasing contains the already-lowercased query `q`. -/
def msgMatches (q : String) (m : ApiMessage) : Bool :=
  (m.text != "") && strIncludes (lowerStr m.text) q

/-- Record type of the UI `Thread` interface in search-interface.tsx
(the fields populated by the exact-mode `searchMessages`). -/
structure Thread where
  id : String
  date : String
  context : String
  messages : List UiMessage
deriving DecidableEq, Inhabited

/-- Lean model of `searchMessages` (search-data.ts, the exact/keyword version):
threads are given together with their fetched message lists (newest first, as
returned by `getMessages`); each thread whose reversed (chronological) message
list has at least one match is mapped to a UI `Thread`, and the result is
truncated to 20 entries (`results.slice(0, 20)`). -/
def searchMessages (fmtTime fmtDate : String → String) (query : String)
    (threads : List (ApiThread × List ApiMessage)) : List Thread :=
  let q := lowerStr (trimStr query)
  let results := threads.filterMap fun tm =>
    let chronological := tm.2.reverse
    let matching := chronological.filter (msgMatches q)
    if matching.isEmpty then none
    else some
      { id := toString tm.1.chat_id
      , date := fmtDate tm.1.last_message_at
      , context := tm.1.title
      , messages := chronological.map (apiMessageToUiMessage fmtTime) }
  results.take 20

/-- Record type of the ask-mode context-window message: the spread
`{...apiMessageToUiMessage(msg), isMatch}` in search-data.ts. -/
structure AskMessage where
  sender : String
  text : String
  time : String
  isUser : Bool
  isMatch : Bool
deriving DecidableEq, Inhabited

/-- Attach the `isMatch` flag to a UI message (the object spread in the source). -/
def withMatchFlag (u : UiMessage) (b : Bool) : AskMessage :=
  ⟨u.sender, u.text, u.time, u.isUser, b⟩

/-- Record type of the ask-mode result thread in search-data.ts (v2), with the
context-window bookkeeping fields. -/
structure AskThread where
  id : String
  date : String
  context : String
  messages : List AskMessage
  matchIndex : Nat
  hasMoreBefore : Bool
  hasMoreAfter : Bool
  chatId : Nat
deriving DecidableEq, Inhabited

/-- Lean model of the per-thread body of the ask-mode branch of `searchMessages`
(search-data.ts v2): find the first matching message in the chronological list,
take the window of 2 messages before through 2 messages after the match
(`slice(max(0, i-2), min(len, i+3))`), and record whether messages were cut off
on either side.  `q` is the already trimmed-and-lowercased query. -/
def askThreadResult (fmtTime fmtDate : String → String) (q : String)
    (t : ApiThread) (msgs : List ApiMessage) : Option AskThread :=
  let chronological := msgs.reverse
  match chronological.findIdx? (msgMatches q) with
  | none => none
  | some i =>
    let start := i - 2
    let stop := min chronological.length (i + 3)
    let window := (chronological.drop start).take (stop - start)
    some
      { id := toString t.chat_id
      , date := fmtDate t.last_message_at
      , context := t.title
      , messages := window.enum.map fun p =>
          withMatchFlag (apiMessageToUiMessage fmtTime p.2) (decide (start + p.1 = i))
      , matchIndex := i - start
      , hasMoreBefore := decide (0 < start)
      , hasMoreAfter := decide (stop < chronological.length)
      , chatId := t.chat_id }

/-- Lean model of the ask-mode branch of `searchMessages` (search-data.ts v2):
optionally restrict to the thread whose title equals the contact filter name,
build a context-window result per matching thread, keep at most 20. -/
def searchMessagesAsk (fmtTime fmtDate : String → String) (query : String)
    (filterName : Option String)
    (threads : List (ApiThread × List ApiMessage)) : List AskThread :=
  let q := lowerStr (trimStr query)
  let threadsToSearch := match filterName with
    | none => threads
    | some n => threads.filter fun tm => tm.1.title == n
  (threadsToSearch.filterMap fun tm => askThreadResult fmtTime fmtDate q tm.1 tm.2).take 20

/-! ### Part II: the Python processing module, modelled from the spec.

The module `imessage_processor.py` (embedding cache, FAISS index, VADER
sentiment, drama detection, summaries, query functions) is documented in
`python/README.md` but its source is not in this tree; the definitions below
are modelled from the spec. -/

/-- Modelled from the spec: embedding vectors are dense float vectors; modelled
as lists of rationals. -/
abbrev Vec := List ℚ

/-- Inner product of two vectors (trailing entries of the longer one ignored). -/
def dot : Vec → Vec → ℚ
  | [], _ => 0
  | _ :: _, [] => 0
  | a :: v, b :: w => a * b + dot v w

/-- Squared Euclidean norm. -/
def sumSq (v : Vec) : ℚ := dot v v

/-- Modelled from the spec: the `Message` data model of the processing module
(timestamps as seconds). -/
structure Message where
  message_id : Nat
  chat_name : String
  sender : String
  text : String
  timestamp : Nat
deriving DecidableEq, Inhabited

/-- Result record of `search_messages` as documented in the README and spec. -/
structure SearchResult where
  message_id : Nat
  chat_name : String
  sender : String
  text : String
  similarity_score : ℚ
deriving DecidableEq, Inhabited

/-- Build a search result from an indexed message and its similarity score. -/
def mkResult (m : Message) (s : ℚ) : SearchResult :=
  ⟨m.message_id, m.chat_name, m.sender, m.text, s⟩

/-- Comparator putting higher similarity scores first. -/
def scoreDesc (a b : SearchResult) : Bool :=
  decide (b.similarity_score ≤ a.similarity_score)

/-- Modelled from the spec: `search_messages(query, top_k)` of the missing
`imessage_processor.py`.  The index stores each message with its unit-normalized
embedding; similarity is the inner product with the unit query vector; results
are sorted by descending similarity and the first `top_k` are returned. -/
def search_messages (qv : Vec) (store : List (Message × Vec)) (top_k : Nat) :
    List SearchResult :=
  ((store.map fun p => mkResult p.1 (dot qv p.2)).mergeSort scoreDesc).take top_k

/-- Modelled from the spec: the worker loop of the Drama Detector's time-gap
partition.  `cur` holds the current thread in reverse, `lastT` the timestamp of
the previous message; a new thread begins when the gap to the next message
exceeds `gapMax` or the current thread has reached `maxSize` messages. -/
def dramaGo {α : Type} (time : α → Nat) (gapMax maxSize : Nat) :
    List α → Nat → List α → List (List α)
  | cur, _, [] => [cur.reverse]
  | cur, lastT, m :: ms =>
    if gapMax < time m - lastT ∨ maxSize ≤ cur.length then
      cur.reverse :: dramaGo time gapMax maxSize [m] (time m) ms
    else
      dramaGo time gapMax maxSize (m :: cur) (time m) ms

/-- Modelled from the spec: the Drama Detector's partition of a chat's messages
(already ordered by timestamp) into time-bounded threads. -/
def detectThreads {α : Type} (time : α → Nat) (gapMax maxSize : Nat) :
    List α → List (List α)
  | [] => []
  | m :: ms => dramaGo time gapMax maxSize [m] (time m) ms

/-- Mean of a list of rationals (0 for the empty list). -/
def avgQ (l : List ℚ) : ℚ := l.sum / l.length

/-- Word splitter: the accumulator holds the current word in reverse. -/
def wordsAux : List Char → List Char → List (List Char)
  | cur, [] => if cur.isEmpty then [] else [cur.reverse]
  | cur, c :: cs =>
    if c.isWhitespace then
      if cur.isEmpty then wordsAux [] cs else cur.reverse :: wordsAux [] cs
    else wordsAux (c :: cur) cs

/-- Whitespace tokenization of a text. -/
def tokenize (text : String) : List (List Char) := wordsAux [] text.toList

/-- Modelled from the spec: the Sentiment Scorer is a lexicon/rule-based
analyzer, a pure function of the text.  The lexicon `lex` assigns a valence to
each whitespace token; the raw sum is squashed into [-1, 1] by x / (|x| + 1). -/
def score (lex : List Char → ℚ) (text : String) : ℚ :=
  let raw := ((tokenize text).map lex).sum
  raw / (|raw| + 1)

/-- Modelled from the spec: the `DramaThread` record. -/
structure DramaThread where
  chat_name : String
  message_ids : List Nat
  start_time : Nat
  end_time : Nat
  sentiment_avg : ℚ
  drama_score : ℚ
  summary : String
deriving DecidableEq, Inhabited

/-- Modelled from the spec: the `ChatSummary` record. -/
structure ChatSummary where
  chat_name : String
  total_messages : Nat
  avg_sentiment : ℚ
  top_drama_threads : List DramaThread
deriving DecidableEq, Inhabited

/-- Modelled from the spec: build a `DramaThread` from one detected thread.
The drama score combines negative-sentiment density with message burst density;
the spec leaves the exact weighting open, so the two densities are summed. -/
def mkThread (lex : List Char → ℚ) (name : String) (ms : List Message) : DramaThread :=
  let sents := ms.map fun m => score lex m.text
  let startT := (ms.map Message.timestamp).foldr min 0
  let endT := (ms.map Message.timestamp).foldr max 0
  { chat_name := name
  , message_ids := ms.map Message.message_id
  , start_time := startT
  , end_time := endT
  , sentiment_avg := avgQ sents
  , drama_score := (sents.filter fun s => s < 0).length / (ms.length : ℚ)
      + (ms.length : ℚ) / ((endT - startT : Nat) + 1)
  , summary := name }

/-- Comparator putting higher drama scores first, more recent start first on ties. -/
def dramaDesc (a b : DramaThread) : Bool :=
  decide (b.drama_score < a.drama_score ∨
    (b.drama_score = a.drama_score ∧ b.start_time ≤ a.start_time))

/-- Modelled from the spec: `get_drama_summary(chat_name)` — absent for a chat
with zero messages, otherwise the chat's counts, mean sentiment and top drama
threads. -/
def get_drama_summary (lex : List Char → ℚ) (gapMax maxSize topN : Nat)
    (name : String) (msgs : List Message) : Option ChatSummary :=
  let chatMsgs := msgs.filter fun m => m.chat_name == name
  if chatMsgs.isEmpty then none
  else some
    { chat_name := name
    , total_messages := chatMsgs.length
    , avg_sentiment := avgQ (chatMsgs.map fun m => score lex m.text)
    , top_drama_threads :=
        (((detectThreads Message.timestamp gapMax maxSize chatMsgs).map
          (mkThread lex name)).mergeSort dramaDesc).take topN }

/-- Modelled from the spec: the persisted per-chat summaries, one entry per
distinct chat name that yields a present summary. -/
def buildSummaries (lex : List Char → ℚ) (gapMax maxSize topN : Nat)
    (msgs : List Message) : List (String × ChatSummary) :=
  ((msgs.map Message.chat_name).dedup).filterMap fun n =>
    (get_drama_summary lex gapMax maxSize topN n msgs).map fun s => (n, s)

/-- Modelled from the spec: the persisted artifacts the Query Layer reads
(vector index with id-map, and the summaries document). -/
structure Artifacts where
  index : List (Message × Vec)
  summaries : List (String × ChatSummary)

/-- The Query Layer state: `none` when the pipeline has not yet produced the
persisted artifacts. -/
abbrev QueryState := Option Artifacts

/-- The error condition reported when the artifacts are missing. -/
def notYetProcessed : String := "not yet processed"

/-- Modelled from the spec: the Query Layer's `search_messages` operation, as a
state-passing function making reads/writes explicit: it returns the result and
the (unchanged) state, and fails when the artifacts are absent. -/
def ql_search_messages (st : QueryState) (qv : Vec) (k : Nat) :
    Except String (List SearchResult) × QueryState :=
  match st with
  | none => (Except.error notYetProcessed, none)
  | some a => (Except.ok (search_messages qv a.index k), some a)

/-- Modelled from the spec: the Query Layer's `get_drama_summary` operation. -/
def ql_get_drama_summary (st : QueryState) (name : String) :
    Except String (Option ChatSummary) × QueryState :=
  match st with
  | none => (Except.error notYetProcessed, none)
  | some a => (Except.ok ((a.summaries.find? fun p => p.1 == name).map Prod.snd), some a)

/-- Modelled from the spec: the Query Layer's `get_all_chat_names` operation. -/
def ql_get_all_chat_names (st : QueryState) :
    Except String (List String) × QueryState :=
  match st with
  | none => (Except.error notYetProcessed, none)
  | some a => (Except.ok (a.summaries.map Prod.fst), some a)

/-- Modelled from the spec: cache lookup by content fingerprint.  The
fingerprint (a content hash of the text) is modelled as the text itself. -/
def cacheLookup (c : List (String × Vec)) (fp : String) : Option Vec :=
  (c.find? fun e => e.1 == fp).map Prod.snd

/-- Modelled from the spec: `get_or_compute(message)` of the Embedding Cache —
on a hit return the stored vector and leave the cache unchanged; on a miss
invoke the embedding generator, store the result under the fingerprint, and
return it.  The boolean records whether the generator was invoked. -/
def get_or_compute (embed : String → Vec) (c : List (String × Vec)) (m : Message) :
    Vec × List (String × Vec) × Bool :=
  match cacheLookup c m.text with
  | some v => (v, c, false)
  | none => (embed m.text, (m.text, embed m.text) :: c, true)

/-- Modelled from the spec: the embedding pass of the pipeline — run
`get_or_compute` over the messages in order, returning the vectors in message
order, the final cache, and the number of generator invocations. -/
def runEmbedding (embed : String → Vec) (c : List (String × Vec)) :
    List Message → List Vec × List (String × Vec) × Nat
  | [] => ([], c, 0)
  | m :: ms =>
    let r := get_or_compute embed c m
    let rest := runEmbedding embed r.2.1 ms
    (r.1 :: rest.1, rest.2.1, (if r.2.2 then 1 else 0) + rest.2.2)

/-! ### Theorems -/

/-- C10: for every API message, `apiMessageToUiMessage` sets `sender` to "You"
and `isUser` to true exactly when `sender_name` equals "ME", otherwise
preserves `sender_name` with `isUser` false, and leaves the text unchanged. -/
theorem apiMessageToUiMessage_spec (fmtTime : String → String) (m : ApiMessage) :
    ((apiMessageToUiMessage fmtTime m).isUser = true ↔ m.sender_name = "ME") ∧
    (m.sender_name = "ME" → (apiMessageToUiMessage fmtTime m).sender = "You") ∧
    (m.sender_name ≠ "ME" →
      (apiMessageToUiMessage fmtTime m).sender = m.sender_name ∧
      (apiMessageToUiMessage fmtTime m).isUser = false) ∧
    (apiMessageToUiMessage fmtTime m).text = m.text := by
  unfold apiMessageToUiMessage
  by_cases h : m.sender_name = "ME" <;> simp [h]

/-- Witness for C10 at a concrete "ME" message. -/
theorem apiMessageToUiMessage_spec_witness :
    ((apiMessageToUiMessage id ⟨"10:00", "ME", "hi"⟩).isUser = true ↔
      ("ME" : String) = "ME") ∧
    (("ME" : String) = "ME" →
      (apiMessageToUiMessage id ⟨"10:00", "ME", "hi"⟩).sender = "You") ∧
    (("ME" : String) ≠ "ME" →
      (apiMessageToUiMessage id ⟨"10:00", "ME", "hi"⟩).sender = "ME" ∧
      (apiMessageToUiMessage id ⟨"10:00", "ME", "hi"⟩).isUser = false) ∧
    (apiMessageToUiMessage id ⟨"10:00", "ME", "hi"⟩).text = "hi" :=
  apiMessageToUiMessage_spec id ⟨"10:00", "ME", "hi"⟩

/-- C4: every Query Layer operation leaves the persisted-artifacts state
unchanged (no writes, no recomputation), and on a missing-artifacts state each
operation fails with the "not yet processed" error. -/
theorem query_layer_read_only_and_missing_artifacts
    (st : QueryState) (qv : Vec) (k : Nat) (name : String) :
    (ql_search_messages st qv k).2 = st ∧
    (ql_get_drama_summary st name).2 = st ∧
    (ql_get_all_chat_names st).2 = st ∧
    (ql_search_messages none qv k).1 = Except.error notYetProcessed ∧
    (ql_get_drama_summary none name).1 = Except.error notYetProcessed ∧
    (ql_get_all_chat_names none).1 = Except.error notYetProcessed := by
  cases st <;>
    simp [ql_search_messages, ql_get_drama_summary, ql_get_all_chat_names]

/-- C8: the client-side exact-mode `searchMessages` returns at most 20 threads,
and every returned thread comes from a fetched thread that contains at least
one message whose lowercased text contains the trimmed lowercased query. -/
theorem searchMessages_exact_spec (fmtTime fmtDate : String → String)
    (query : String) (threads : List (ApiThread × List ApiMessage)) :
    (searchMessages fmtTime fmtDate query threads).length ≤ 20 ∧
    ∀ r ∈ searchMessages fmtTime fmtDate query threads,
      ∃ tm ∈ threads, r.context = tm.1.title ∧
        ∃ m ∈ tm.2, (lowerStr (trimStr query)).data <:+: (lowerStr m.text).data := by
  constructor
  · exact List.length_take_le 20 _
  · intro r hr
    have hr' := List.mem_of_mem_take hr
    rw [List.mem_filterMap] at hr'
    obtain ⟨tm, htm, hf⟩ := hr'
    refine ⟨tm, htm, ?_⟩
    simp only at hf
    by_cases hempty :
        (tm.2.reverse.filter (msgMatches (lowerStr (trimStr query)))).isEmpty = true
    · rw [if_pos hempty] at hf
      cases hf
    · rw [if_neg hempty] at hf
      have hne : tm.2.reverse.filter (msgMatches (lowerStr (trimStr query))) ≠ [] := by
        simpa [List.isEmpty_iff] using hempty
      obtain ⟨m, hm⟩ := List.exists_mem_of_ne_nil _ hne
      rw [List.mem_filter] at hm
      obtain ⟨hmem, hmatch⟩ := hm
      refine ⟨?_, m, List.mem_reverse.mp hmem, ?_⟩
      · injection hf with hf
        rw [← hf]
      · unfold msgMatches strIncludes at hmatch
        have hand := (Bool.and_eq_true _ _).mp hmatch
        exact of_decide_eq_true hand.2

/-- Witness for C8 at a one-thread fetch whose single message matches. -/
theorem searchMessages_exact_spec_witness :
    (searchMessages id id "hello"
      ([(⟨1, "A", "x"⟩, [⟨"t", "ME", "say HELLO!"⟩])] :
        List (ApiThread × List ApiMessage))).length ≤ 20 ∧
    ∀ r ∈ searchMessages id id "hello"
      ([(⟨1, "A", "x"⟩, [⟨"t", "ME", "say HELLO!"⟩])] :
        List (ApiThread × List ApiMessage)),
      ∃ tm ∈ ([(⟨1, "A", "x"⟩, [⟨"t", "ME", "say HELLO!"⟩])] :
        List (ApiThread × List ApiMessage)), r.context = tm.1.title ∧
        ∃ m ∈ tm.2, (lowerStr (trimStr "hello")).data <:+: (lowerStr m.text).data :=
  searchMessages_exact_spec id id "hello" _

/-- C9: in ask mode, when the chronological message list has its first match at
index `i`, the returned context window holds at most 5 messages, at most 2 of
them before the match and at most 2 after it; `hasMoreBefore` is true exactly
when `2 < i`, and `hasMoreAfter` is true exactly when messages exist past the
window's end, i.e. when `i + 3` is still below the number of messages. -/
theorem askThreadResult_context_window (fmtTime fmtDate : String → String)
    (q : String) (t : ApiThread) (msgs : List ApiMessage) (i : Nat)
    (h : msgs.reverse.findIdx? (msgMatches q) = some i) :
    ∃ r, askThreadResult fmtTime fmtDate q t msgs = some r ∧
      r.messages.length ≤ 5 ∧
      r.matchIndex ≤ 2 ∧
      r.messages.length ≤ r.matchIndex + 3 ∧
      (r.hasMoreBefore = true ↔ 2 < i) ∧
      (r.hasMoreAfter = true ↔ i + 3 < msgs.length) := by
  have hi : i < msgs.reverse.length :=
    (List.findIdx?_eq_some_iff_getElem.mp h).1
  rw [List.length_reverse] at hi
  simp only [askThreadResult, h]
  refine ⟨_, rfl, ?_, ?_, ?_, ?_, ?_⟩
  · simp only [List.length_map, List.enum_length, List.length_take,
      List.length_drop, List.length_reverse]
    omega
  · simp only
    omega
  · simp only [List.length_map, List.enum_length, List.length_take,
      List.length_drop, List.length_reverse]
    omega
  · simp only [decide_eq_true_eq]
    omega
  · simp only [decide_eq_true_eq, List.length_reverse]
    omega

/-- Witness for C9 at a concrete two-message thread whose match sits at
chronological index 1. -/
theorem askThreadResult_context_window_witness :
    ∃ r, askThreadResult id id "b" ⟨1, "T", "d"⟩
        [⟨"t2", "X", "b!"⟩, ⟨"t1", "X", "a"⟩] = some r ∧
      r.messages.length ≤ 5 ∧
      r.matchIndex ≤ 2 ∧
      r.messages.length ≤ r.matchIndex + 3 ∧
      (r.hasMoreBefore = true ↔ 2 < 1) ∧
      (r.hasMoreAfter = true ↔ 1 + 3 <
        ([⟨"t2", "X", "b!"⟩, ⟨"t1", "X", "a"⟩] : List ApiMessage).length) :=
  askThreadResult_context_window id id "b" ⟨1, "T", "d"⟩
    [⟨"t2", "X", "b!"⟩, ⟨"t1", "X", "a"⟩] 1 (by decide)

/-- A vector's inner product with itself is nonnegative. -/
theorem dot_self_nonneg (v : Vec) : 0 ≤ dot v v := by
  induction v with
  | nil => simp [dot]
  | cons a v ih =>
    simp only [dot]
    nlinarith [mul_self_nonneg a]

/-- Cauchy-Schwarz for list inner products, squared form. -/
theorem dot_mul_self_le (v w : Vec) : dot v w * dot v w ≤ sumSq v * sumSq w := by
  unfold sumSq
  induction v generalizing w with
  | nil => simp [dot]
  | cons a v ih =>
    cases w with
    | nil =>
      simp only [dot, mul_zero]
      nlinarith [mul_self_nonneg (dot (a :: v) (a :: v))]
    | cons b w =>
      have hIH := ih w
      have hS : 0 ≤ dot v v := dot_self_nonneg v
      have hT : 0 ≤ dot w w := dot_self_nonneg w
      simp only [dot]
      rcases eq_or_lt_of_le hS with hS0 | hSpos
      · have hd : dot v w * dot v w ≤ 0 := by rw [← hS0] at hIH; simpa using hIH
        have hd0 : dot v w = 0 := by nlinarith [mul_self_nonneg (dot v w)]
        rw [hd0, ← hS0]
        nlinarith [mul_nonneg (mul_self_nonneg a) hT, mul_self_nonneg (a * b)]
      · nlinarith [sq_nonneg (a * dot v w - b * dot v v),
          mul_nonneg (add_nonneg (mul_self_nonneg a) hS)
            (sub_nonneg.mpr hIH), hSpos]

/-- An inner product of unit vectors lies in [-1, 1]. -/
theorem dot_unit_mem_Icc (v w : Vec) (hv : sumSq v = 1) (hw : sumSq w = 1) :
    -1 ≤ dot v w ∧ dot v w ≤ 1 := by
  have h := dot_mul_self_le v w
  rw [hv, hw] at h
  have habs : |dot v w| ≤ 1 := abs_le_one_iff_mul_self_le_one.mpr (by simpa using h)
  exact abs_le.mp habs

/-- The comparator `scoreDesc` is transitive. -/
theorem scoreDesc_trans (a b c : SearchResult) :
    scoreDesc a b → scoreDesc b c → scoreDesc a c := by
  simp only [scoreDesc, decide_eq_true_eq]
  intro h1 h2
  exact le_trans h2 h1

/-- The comparator `scoreDesc` is total. -/
theorem scoreDesc_total (a b : SearchResult) : scoreDesc a b || scoreDesc b a := by
  simp only [scoreDesc, Bool.or_eq_true, decide_eq_true_eq]
  exact le_total _ _

/-- C1: under the spec's invariant that the query vector and all indexed
vectors are unit-norm, `search_messages` returns results sorted by
non-increasing similarity, every similarity score lies in [-1, 1], and when
fewer than `top_k` vectors are indexed all of them are returned (the result is
a permutation of the whole scored index). -/
theorem search_messages_sorted_bounded (qv : Vec) (store : List (Message × Vec))
    (k : Nat) (hq : sumSq qv = 1) (hs : ∀ p ∈ store, sumSq p.2 = 1) :
    ((search_messages qv store k).map SearchResult.similarity_score).Pairwise (· ≥ ·) ∧
    (∀ r ∈ search_messages qv store k,
      -1 ≤ r.similarity_score ∧ r.similarity_score ≤ 1) ∧
    (store.length < k →
      (search_messages qv store k).Perm
        (store.map fun p => mkResult p.1 (dot qv p.2))) := by
  refine ⟨?_, ?_, ?_⟩
  · have hsorted :=
      List.sorted_mergeSort scoreDesc_trans scoreDesc_total
        (store.map fun p => mkResult p.1 (dot qv p.2))
    have htake : (search_messages qv store k).Pairwise
        (fun a b => scoreDesc a b = true) :=
      List.Pairwise.sublist (List.take_sublist _ _) hsorted
    rw [List.pairwise_map]
    exact htake.imp fun h => of_decide_eq_true h
  · intro r hr
    have hr1 := List.mem_of_mem_take hr
    rw [List.mem_mergeSort, List.mem_map] at hr1
    obtain ⟨p, hp, hpr⟩ := hr1
    have := dot_unit_mem_Icc qv p.2 hq (hs p hp)
    rw [← hpr]
    exact this
  · intro hlen
    have hperm : ((store.map fun p => mkResult p.1 (dot qv p.2)).mergeSort
        scoreDesc).Perm (store.map fun p => mkResult p.1 (dot qv p.2)) :=
      List.mergeSort_perm _ _
    have hlen2 : ((store.map fun p => mkResult p.1 (dot qv p.2)).mergeSort
        scoreDesc).length ≤ k := by
      rw [hperm.length_eq, List.length_map]
      omega
    unfold search_messages
    rw [List.take_of_length_le hlen2]
    exact hperm

/-- Witness for C1 on a two-vector unit-norm index. -/
theorem search_messages_sorted_bounded_witness :
    (((search_messages [1, 0]
        ([(⟨1, "A", "s", "t1", 0⟩, [0, 1]), (⟨2, "A", "s", "t2", 0⟩, [1, 0])] :
          List (Message × Vec)) 5).map SearchResult.similarity_score).Pairwise
      (· ≥ ·)) ∧
    (∀ r ∈ search_messages [1, 0]
        ([(⟨1, "A", "s", "t1", 0⟩, [0, 1]), (⟨2, "A", "s", "t2", 0⟩, [1, 0])] :
          List (Message × Vec)) 5,
      -1 ≤ r.similarity_score ∧ r.similarity_score ≤ 1) ∧
    (([(⟨1, "A", "s", "t1", 0⟩, [0, 1]), (⟨2, "A", "s", "t2", 0⟩, [1, 0])] :
        List (Message × Vec)).length < 5 →
      (search_messages [1, 0]
        ([(⟨1, "A", "s", "t1", 0⟩, [0, 1]), (⟨2, "A", "s", "t2", 0⟩, [1, 0])] :
          List (Message × Vec)) 5).Perm
        (([(⟨1, "A", "s", "t1", 0⟩, [0, 1]), (⟨2, "A", "s", "t2", 0⟩, [1, 0])] :
          List (Message × Vec)).map fun p => mkResult p.1 (dot [1, 0] p.2))) :=
  search_messages_sorted_bounded [1, 0] _ 5
    (by norm_num [sumSq, dot])
    (by
      intro p hp
      simp only [List.mem_cons, List.not_mem_nil, or_false] at hp
      rcases hp with h | h <;> subst h <;> norm_num [sumSq, dot])

/-- C3: every element returned by `search_messages` carries the
message_id, chat_name, sender and text of an indexed message, together with
that message's similarity score. -/
theorem search_messages_fields (qv : Vec) (store : List (Message × Vec)) (k : Nat) :
    ∀ r ∈ search_messages qv store k, ∃ p ∈ store,
      r.message_id = p.1.message_id ∧ r.chat_name = p.1.chat_name ∧
      r.sender = p.1.sender ∧ r.text = p.1.text ∧
      r.similarity_score = dot qv p.2 := by
  intro r hr
  unfold search_messages at hr
  have hr1 := List.mem_of_mem_take hr
  rw [List.mem_mergeSort, List.mem_map] at hr1
  obtain ⟨p, hp, hpr⟩ := hr1
  exact ⟨p, hp, by rw [← hpr]; exact ⟨rfl, rfl, rfl, rfl, rfl⟩⟩

/-- Witness for C3 on a singleton index. -/
theorem search_messages_fields_witness :
    ∃ p ∈ ([(⟨7, "A", "al", "hey", 3⟩, [1])] : List (Message × Vec)),
      (mkResult ⟨7, "A", "al", "hey", 3⟩ 1).message_id = p.1.message_id ∧
      (mkResult ⟨7, "A", "al", "hey", 3⟩ 1).chat_name = p.1.chat_name ∧
      (mkResult ⟨7, "A", "al", "hey", 3⟩ 1).sender = p.1.sender ∧
      (mkResult ⟨7, "A", "al", "hey", 3⟩ 1).text = p.1.text ∧
      (mkResult ⟨7, "A", "al", "hey", 3⟩ 1).similarity_score = dot [1] p.2 :=
  search_messages_fields [1] ([(⟨7, "A", "al", "hey", 3⟩, [1])] :
      List (Message × Vec)) 1
    (mkResult ⟨7, "A", "al", "hey", 3⟩ 1)
    (by
      unfold search_messages
      rw [List.map_singleton, List.mergeSort_singleton]
      norm_num [mkResult, dot])

/-- The partition worker concatenates back to the accumulator and the rest. -/
theorem dramaGo_flatten {α : Type} (time : α → Nat) (g s : Nat) :
    ∀ (ms cur : List α) (lastT : Nat),
      (dramaGo time g s cur lastT ms).flatten = cur.reverse ++ ms := by
  intro ms
  induction ms with
  | nil => intro cur lastT; simp [dramaGo]
  | cons m ms ih =>
    intro cur lastT
    simp only [dramaGo]
    split
    · simp [ih]
    · rw [ih]; simp

/-- The Drama Detector's threads concatenate back to the original message list. -/
theorem detectThreads_flatten {α : Type} (time : α → Nat) (g s : Nat)
    (l : List α) : (detectThreads time g s l).flatten = l := by
  cases l with
  | nil => rfl
  | cons m ms => simp [detectThreads, dramaGo_flatten]

/-- C2: the Drama Detector partitions the timestamp-ordered messages into
threads (their concatenation is the original list), and on timestamps
[t, t+1min, t+2min, t+30min, t+31min] with a 10-minute (600 s) gap threshold
and any maximum thread size above 2 it yields exactly the two threads
{t..t+2min} and {t+30min..t+31min}. -/
theorem drama_detector_partition_example (t m : Nat) (hm : 2 < m) :
    (∀ (l : List Nat), (detectThreads id 600 m l).flatten = l) ∧
    detectThreads id 600 m [t, t + 60, t + 120, t + 1800, t + 1860] =
      [[t, t + 60, t + 120], [t + 1800, t + 1860]] := by
  refine ⟨fun l => detectThreads_flatten id 600 m l, ?_⟩
  have h1 : t + 60 - t = 60 := by omega
  have h2 : t + 120 - (t + 60) = 60 := by omega
  have h3 : t + 1800 - (t + 120) = 1680 := by omega
  have h4 : t + 1860 - (t + 1800) = 60 := by omega
  have hm1 : ¬ m ≤ 1 := by omega
  have hm2 : ¬ m ≤ 2 := by omega
  simp [detectThreads, dramaGo, h1, h2, h3, h4, hm1, hm2]

/-- Witness for C2 at t = 0 with the default-style maximum thread size 50. -/
theorem drama_detector_partition_example_witness :
    (∀ (l : List Nat), (detectThreads id 600 50 l).flatten = l) ∧
    detectThreads id 600 50 [0, 0 + 60, 0 + 120, 0 + 1800, 0 + 1860] =
      [[0, 0 + 60, 0 + 120], [0 + 1800, 0 + 1860]] :=
  drama_detector_partition_example 0 50 (by decide)

/-- C5: a chat with zero messages has an absent drama summary and is omitted
from the persisted summaries. -/
theorem get_drama_summary_empty_absent (lex : List Char → ℚ) (g s N : Nat)
    (name : String) (msgs : List Message)
    (h : msgs.filter (fun x => x.chat_name == name) = []) :
    get_drama_summary lex g s N name msgs = none ∧
    ∀ p ∈ buildSummaries lex g s N msgs, p.1 ≠ name := by
  have habs : get_drama_summary lex g s N name msgs = none := by
    unfold get_drama_summary
    rw [h]
    rfl
  refine ⟨habs, ?_⟩
  intro p hp
  unfold buildSummaries at hp
  rw [List.mem_filterMap] at hp
  obtain ⟨n, hn, hsome⟩ := hp
  rw [Option.map_eq_some'] at hsome
  obtain ⟨sumr, hsum, hps⟩ := hsome
  intro hpname
  rw [← hps] at hpname
  simp only at hpname
  rw [hpname] at hsum
  rw [habs] at hsum
  cases hsum

/-- Witness for C5: the chat "Empty" has no messages in a one-message store. -/
theorem get_drama_summary_empty_absent_witness :
    get_drama_summary (fun _ => 0) 600 50 3 "Empty"
      ([⟨1, "B", "s", "x", 0⟩] : List Message) = none ∧
    ∀ p ∈ buildSummaries (fun _ => 0) 600 50 3
      ([⟨1, "B", "s", "x", 0⟩] : List Message), p.1 ≠ "Empty" :=
  get_drama_summary_empty_absent (fun _ => 0) 600 50 3 "Empty" _ (by decide)

/-- Whitespace-only input tokenizes to no words. -/
theorem wordsAux_all_whitespace :
    ∀ (l : List Char), (∀ c ∈ l, c.isWhitespace) → wordsAux [] l = [] := by
  intro l
  induction l with
  | nil => intro; rfl
  | cons c cs ih =>
    intro h
    have hc : c.isWhitespace := h c (List.mem_cons_self c cs)
    simp only [wordsAux, hc, if_true, List.isEmpty_nil]
    exact ih fun x hx => h x (List.mem_cons_of_mem c hx)

/-- C6: the sentiment score of any text under any lexicon lies in [-1, 1], and
every empty or whitespace-only text scores exactly 0 (the scorer is a pure
function of the text by construction). -/
theorem score_bounded_and_whitespace_neutral (lex : List Char → ℚ) (text : String) :
    (-1 ≤ score lex text ∧ score lex text ≤ 1) ∧
    (∀ t : String, (∀ c ∈ t.toList, c.isWhitespace) → score lex t = 0) := by
  constructor
  · have hpos : (0 : ℚ) < |((tokenize text).map lex).sum| + 1 := by positivity
    have habs : |score lex text| ≤ 1 := by
      unfold score
      rw [abs_div, abs_of_pos hpos, div_le_one hpos]
      linarith [abs_nonneg ((tokenize text).map lex).sum]
    exact abs_le.mp habs
  · intro t ht
    have hwords : wordsAux [] t.data = [] := wordsAux_all_whitespace t.data ht
    simp [score, tokenize, String.toList, hwords]

/-- Witness for C6: bound at a non-trivial text, neutrality at whitespace. -/
theorem score_bounded_and_whitespace_neutral_witness :
    (-1 ≤ score (fun _ => 2) "so mad" ∧ score (fun _ => 2) "so mad" ≤ 1) ∧
    score (fun _ => 2) "  " = 0 :=
  ⟨(score_bounded_and_whitespace_neutral (fun _ => 2) "so mad").1,
    (score_bounded_and_whitespace_neutral (fun _ => 2) "so mad").2 "  " (by decide)⟩

/-- Coherence of a cache with the embedding backend: every entry stores the
embedding of its fingerprint. -/
def Coherent (embed : String → Vec) (c : List (String × Vec)) : Prop :=
  ∀ e ∈ c, e.2 = embed e.1

/-- In a coherent cache, a hit returns the backend's embedding of the text. -/
theorem lookup_coherent {embed : String → Vec} {c : List (String × Vec)}
    {fp : String} {v : Vec} (hc : Coherent embed c)
    (hl : cacheLookup c fp = some v) : v = embed fp := by
  unfold cacheLookup at hl
  rw [Option.map_eq_some'] at hl
  obtain ⟨e, he, hev⟩ := hl
  have hmem := List.mem_of_find?_eq_some he
  have hpred := List.find?_some he
  have hfp : e.1 = fp := by simpa using hpred
  rw [← hev, hc e hmem, hfp]

/-- `get_or_compute` returns the embedding of the message text and preserves
coherence. -/
theorem get_or_compute_spec {embed : String → Vec} {c : List (String × Vec)}
    (m : Message) (hc : Coherent embed c) :
    (get_or_compute embed c m).1 = embed m.text ∧
    Coherent embed (get_or_compute embed c m).2.1 := by
  unfold get_or_compute
  rcases hl : cacheLookup c m.text with _ | v
  · simp only [hl]
    refine ⟨trivial, ?_⟩
    intro e he
    rcases List.mem_cons.mp he with rfl | he2
    · rfl
    · exact hc e he2
  · simp only [hl]
    exact ⟨lookup_coherent hc hl, hc⟩

/-- `get_or_compute` never evicts: an already-cached fingerprint stays cached. -/
theorem get_or_compute_preserves {embed : String → Vec} {c : List (String × Vec)}
    (m : Message) (fp : String) (h : (cacheLookup c fp).isSome) :
    (cacheLookup (get_or_compute embed c m).2.1 fp).isSome := by
  unfold get_or_compute
  rcases hl : cacheLookup c m.text with _ | v
  · simp only [hl]
    unfold cacheLookup at h ⊢
    rw [List.find?_cons]
    rcases hbeq : ((m.text, embed m.text).1 == fp) with _ | _
    · simpa using h
    · simp
  · simpa [hl] using h

/-- After `get_or_compute`, the message's own fingerprint is cached. -/
theorem get_or_compute_contains_self {embed : String → Vec}
    {c : List (String × Vec)} (m : Message) :
    (cacheLookup (get_or_compute embed c m).2.1 m.text).isSome := by
  unfold get_or_compute
  rcases hl : cacheLookup c m.text with _ | v
  · simp only [hl]
    unfold cacheLookup
    rw [List.find?_cons]
    simp
  · simp [hl]

/-- The embedding pass returns exactly the backend embeddings of the message
texts, in order, and leaves a coherent cache. -/
theorem runEmbedding_vectors {embed : String → Vec} :
    ∀ (ms : List Message) (c : List (String × Vec)), Coherent embed c →
      (runEmbedding embed c ms).1 = ms.map (fun m => embed m.text) ∧
      Coherent embed (runEmbedding embed c ms).2.1 := by
  intro ms
  induction ms with
  | nil => intro c hc; exact ⟨rfl, hc⟩
  | cons m ms ih =>
    intro c hc
    obtain ⟨hv, hcoh⟩ := get_or_compute_spec m hc
    obtain ⟨hrest, hcoh2⟩ := ih _ hcoh
    simp only [runEmbedding, List.map_cons]
    exact ⟨by rw [hv, hrest], hcoh2⟩

/-- The embedding pass never evicts a cached fingerprint. -/
theorem runEmbedding_preserves {embed : String → Vec} :
    ∀ (ms : List Message) (c : List (String × Vec)) (fp : String),
      (cacheLookup c fp).isSome →
      (cacheLookup (runEmbedding embed c ms).2.1 fp).isSome := by
  intro ms
  induction ms with
  | nil => intro c fp h; exact h
  | cons m ms ih =>
    intro c fp h
    exact ih _ fp (get_or_compute_preserves m fp h)

/-- After the embedding pass, every processed message text is cached. -/
theorem runEmbedding_contains_all {embed : String → Vec} :
    ∀ (ms : List Message) (c : List (String × Vec)) (m : Message), m ∈ ms →
      (cacheLookup (runEmbedding embed c ms).2.1 m.text).isSome := by
  intro ms
  induction ms with
  | nil => intro c m h; cases h
  | cons m0 ms ih =>
    intro c m h
    rcases List.mem_cons.mp h with rfl | h2
    · exact runEmbedding_preserves ms _ m.text (get_or_compute_contains_self m)
    · exact ih _ m h2

/-- A run over fully cached input recomputes nothing: it returns the same
vectors, leaves the cache untouched, and performs zero generator calls. -/
theorem runEmbedding_cached_run {embed : String → Vec} :
    ∀ (ms : List Message) (c : List (String × Vec)), Coherent embed c →
      (∀ m ∈ ms, (cacheLookup c m.text).isSome) →
      runEmbedding embed c ms = (ms.map (fun m => embed m.text), c, 0) := by
  intro ms
  induction ms with
  | nil => intro c _ _; rfl
  | cons m ms ih =>
    intro c hc hall
    have hsome := hall m (List.mem_cons_self m ms)
    rcases hl : cacheLookup c m.text with _ | v
    · rw [hl] at hsome; cases hsome
    · have hv : v = embed m.text := lookup_coherent hc hl
      have hrest := ih c hc fun x hx => hall x (List.mem_cons_of_mem m hx)
      simp only [runEmbedding, get_or_compute, hl, hrest, List.map_cons]
      rw [hv]
      rfl

/-- C7: messages with identical text get identical cached vectors
(content-addressing), and re-running the pipeline on the final cache with the
same input reproduces the same vectors and the same cache with zero embedding
computations (two-run determinism, no recomputation). -/
theorem embedding_cache_deterministic (embed : String → Vec) (ms : List Message) :
    (∀ i j, i < ms.length → j < ms.length →
      (ms.getD i default).text = (ms.getD j default).text →
      (runEmbedding embed [] ms).1.getD i [] = (runEmbedding embed [] ms).1.getD j []) ∧
    runEmbedding embed (runEmbedding embed [] ms).2.1 ms =
      ((runEmbedding embed [] ms).1, (runEmbedding embed [] ms).2.1, 0) := by
  have hcoh0 : Coherent embed ([] : List (String × Vec)) := by
    intro e he; cases he
  obtain ⟨hvec, hcoh⟩ := runEmbedding_vectors ms [] hcoh0
  constructor
  · intro i j hi hj htext
    rw [hvec]
    rw [List.getD_eq_getElem?_getD, List.getD_eq_getElem?_getD,
      List.getElem?_map, List.getElem?_map,
      List.getElem?_eq_getElem hi, List.getElem?_eq_getElem hj]
    simp only [Option.map_some', Option.getD_some]
    rw [List.getD_eq_getElem?_getD, List.getD_eq_getElem?_getD,
      List.getElem?_eq_getElem hi, List.getElem?_eq_getElem hj] at htext
    simp only [Option.getD_some] at htext
    rw [htext]
  · have hall : ∀ m ∈ ms,
        (cacheLookup (runEmbedding embed [] ms).2.1 m.text).isSome :=
      fun m hm => runEmbedding_contains_all ms [] m hm
    have := runEmbedding_cached_run ms (runEmbedding embed [] ms).2.1 hcoh hall
    rw [this, hvec]

/-- Witness for C7 on two identical-text messages. -/
theorem embedding_cache_deterministic_witness :
    (runEmbedding (fun t => [(t.data.length : ℚ)]) []
        ([⟨1, "A", "s", "hi", 0⟩, ⟨2, "A", "s", "hi", 5⟩] : List Message)).1.getD 0 [] =
      (runEmbedding (fun t => [(t.data.length : ℚ)]) []
        ([⟨1, "A", "s", "hi", 0⟩, ⟨2, "A", "s", "hi", 5⟩] : List Message)).1.getD 1 [] ∧
    runEmbedding (fun t => [(t.data.length : ℚ)])
        (runEmbedding (fun t => [(t.data.length : ℚ)]) []
          ([⟨1, "A", "s", "hi", 0⟩, ⟨2, "A", "s", "hi", 5⟩] : List Message)).2.1
        ([⟨1, "A", "s", "hi", 0⟩, ⟨2, "A", "s", "hi", 5⟩] : List Message) =
      ((runEmbedding (fun t => [(t.data.length : ℚ)]) []
          ([⟨1, "A", "s", "hi", 0⟩, ⟨2, "A", "s", "hi", 5⟩] : List Message)).1,
        (runEmbedding (fun t => [(t.data.length : ℚ)]) []
          ([⟨1, "A", "s", "hi", 0⟩, ⟨2, "A", "s", "hi", 5⟩] : List Message)).2.1, 0) :=
  ⟨(embedding_cache_deterministic (fun t => [(t.data.length : ℚ)])
      ([⟨1, "A", "s", "hi", 0⟩, ⟨2, "A", "s", "hi", 5⟩] : List Message)).1
      0 1 (by decide) (by decide) (by decide),
    (embedding_cache_deterministic (fun t => [(t.data.length : ℚ)])
      ([⟨1, "A", "s", "hi", 0⟩, ⟨2, "A", "s", "hi", 5⟩] : List Message)).2⟩

end Receipts
